import Mathlib

/-!
Verification of the swarm-prompt-validation pipeline core.

This file gives a shallow embedding, in Lean 4, of the control-flow and
data-model core of the `swarm-prompt-validation` repository
(`src/app/models/pdf_context.py`, `src/app/core/base_node.py`,
`src/app/orchestrator.py`, `src/app/nodes/*.py`, `src/app/main.py`) and
proves or refutes the specification's claims about it.

Modelling conventions:
  * Python dictionaries with string keys (`Dict[str, Any]`) are modelled as
    association lists `List (String × Value)` where `Value` is a small
    inductive of Python value shapes.  `List.lookup` models `dict.get` /
    key access (first binding wins).
  * Wall-clock timestamps (`datetime.utcnow().isoformat()`) are opaque
    environment-supplied strings and are elided from history entries,
    since no claim depends on them.
  * Python floats (`Optional[float]` fields) are carried opaquely as `Rat`:
    no arithmetic is ever performed on them in the source, only storage
    and retrieval.
  * `setattr` on a typed record field is modelled with a typed coercion;
    an ill-typed assignment (which Python would store as-is) leaves the
    field unchanged.  Every concrete input used below is well typed, so
    this divergence is never exercised.
-/

/-- Shapes of Python values that occur in the pipeline's dictionaries. -/
inductive Value where
  | vStr (s : String)
  | vBool (b : Bool)
  | vInt (n : Int)
  | vRat (q : Rat)
  | vNull
  | vList (l : List Value)
  | vDict (d : List (String × Value))

/-- A Python `Dict[str, Any]` as an association list. -/
abbrev Ctx := List (String × Value)

/-- `src/app/models/pdf_context.py` lines 7-32: the `PDFContext` dataclass,
with its thirteen fields and their dataclass defaults. -/
structure PDFContext where
  pdf_text : String := ""
  user_prompt : String := ""
  enhanced_prompt : String := ""
  response : String := ""
  response_args : Ctx := []
  node_history : List String := []
  node_notes : List String := []
  node_status : Bool := true
  node_error : List String := []
  validation_failed : Bool := false
  processing_time : Option Rat := none
  token_count : Option Int := none
  confidence_score : Option Rat := none

/-- Embed an `Optional[float]` field value into `Value` (`None` ↦ `vNull`). -/
def optRatVal : Option Rat → Value
  | none => Value.vNull
  | some q => Value.vRat q

/-- Embed an `Optional[int]` field value into `Value` (`None` ↦ `vNull`). -/
def optIntVal : Option Int → Value
  | none => Value.vNull
  | some n => Value.vInt n

/-- `PDFContext.to_dict` (`src/app/models/pdf_context.py` lines 56-76):
a dictionary holding all thirteen fields under their field names. -/
def PDFContext.to_dict (c : PDFContext) : Ctx :=
  [("pdf_text", Value.vStr c.pdf_text),
   ("user_prompt", Value.vStr c.user_prompt),
   ("enhanced_prompt", Value.vStr c.enhanced_prompt),
   ("response", Value.vStr c.response),
   ("response_args", Value.vDict c.response_args),
   ("node_history", Value.vList (c.node_history.map Value.vStr)),
   ("node_notes", Value.vList (c.node_notes.map Value.vStr)),
   ("node_status", Value.vBool c.node_status),
   ("node_error", Value.vList (c.node_error.map Value.vStr)),
   ("validation_failed", Value.vBool c.validation_failed),
   ("processing_time", optRatVal c.processing_time),
   ("token_count", optIntVal c.token_count),
   ("confidence_score", optRatVal c.confidence_score)]

/-- Coerce a `Value` back to a Python `str`. -/
def asStr : Value → Option String
  | Value.vStr s => some s
  | _ => none

/-- Coerce a `Value` back to a Python `bool`. -/
def asBool : Value → Option Bool
  | Value.vBool b => some b
  | _ => none

/-- Coerce a list of values element-wise back to Python strings. -/
def strListOf : List Value → Option (List String)
  | [] => some []
  | v :: vs =>
    match asStr v, strListOf vs with
    | some s, some ss => some (s :: ss)
    | _, _ => none

/-- Coerce a `Value` back to a Python `List[str]`. -/
def asStrList : Value → Option (List String)
  | Value.vList l => strListOf l
  | _ => none

/-- Coerce a `Value` back to a Python `Dict[str, Any]`. -/
def asDict : Value → Option Ctx
  | Value.vDict d => some d
  | _ => none

/-- Coerce a `Value` back to a Python `Optional[float]`. -/
def asOptRat : Value → Option (Option Rat)
  | Value.vNull => some none
  | Value.vRat q => some (some q)
  | _ => none

/-- Coerce a `Value` back to a Python `Optional[int]`. -/
def asOptInt : Value → Option (Option Int)
  | Value.vNull => some none
  | Value.vInt n => some (some n)
  | _ => none

/-- The thirteen dataclass field names of `PDFContext`: the keyword
arguments `cls(**data)` accepts. -/
def pdfContextKeys : List String :=
  ["pdf_text", "user_prompt", "enhanced_prompt", "response", "response_args",
   "node_history", "node_notes", "node_status", "node_error",
   "validation_failed", "processing_time", "token_count", "confidence_score"]

/-- Read one keyword argument for `cls(**data)`: an absent key falls back to
the dataclass default, a present key must coerce to the field's type. -/
def getField {α : Type} (data : Ctx) (key : String) (dflt : α)
    (coe : Value → Option α) : Option α :=
  match data.lookup key with
  | none => some dflt
  | some v => coe v

/-- `PDFContext.from_dict` (`src/app/models/pdf_context.py` lines 78-88):
`cls(**data)`.  A key outside the thirteen field names makes the Python
call raise `TypeError`, modelled as `none`; a missing key takes the
dataclass default. -/
def PDFContext.from_dict (data : Ctx) : Option PDFContext :=
  if data.all (fun kv => pdfContextKeys.contains kv.1) then do
    let pdf_text ← getField data "pdf_text" "" asStr
    let user_prompt ← getField data "user_prompt" "" asStr
    let enhanced_prompt ← getField data "enhanced_prompt" "" asStr
    let response ← getField data "response" "" asStr
    let response_args ← getField data "response_args" [] asDict
    let node_history ← getField data "node_history" [] asStrList
    let node_notes ← getField data "node_notes" [] asStrList
    let node_status ← getField data "node_status" true asBool
    let node_error ← getField data "node_error" [] asStrList
    let validation_failed ← getField data "validation_failed" false asBool
    let processing_time ← getField data "processing_time" none asOptRat
    let token_count ← getField data "token_count" none asOptInt
    let confidence_score ← getField data "confidence_score" none asOptRat
    pure { pdf_text, user_prompt, enhanced_prompt, response, response_args,
           node_history, node_notes, node_status, node_error,
           validation_failed, processing_time, token_count, confidence_score }
  else none

/-- The six pipeline agents of `src/app/orchestrator.py` (the manager plays
the intake role; `available_nodes` keys plus `"manager"`). -/
inductive NodeName where
  | manager
  | enhancement
  | processing
  | validation
  | review
  | completion
deriving DecidableEq, Repr

/-- One entry of the orchestrator's `node_history` list: the `"node"` and
`"action"` keys of the dictionaries appended by the transfer closures
(`src/app/orchestrator.py` lines 84-169).  The `"timestamp"` key is an
opaque wall-clock string and is elided. -/
structure HistEntry where
  node : String
  action : String
deriving DecidableEq, Repr

/-- The orchestrator state mutated during one `client.run` chain: its
`node_history` list (`src/app/orchestrator.py` line 28, reset at line 336). -/
structure OrchState where
  node_history : List HistEntry
deriving DecidableEq, Repr

/-- Orchestrator closure `transfer_to_enhancement`
(`src/app/orchestrator.py` lines 77-91): appends a manager history entry and
hands the chain to the enhancement agent.  The `context` argument is only
logged, never read or written, so it is not a parameter of the model. -/
def transfer_to_enhancement (s : OrchState) : OrchState × NodeName :=
  (⟨s.node_history ++ [⟨"manager", "transfer_to_enhancement"⟩]⟩, NodeName.enhancement)

/-- Orchestrator closure `transfer_to_processing`
(`src/app/orchestrator.py` lines 93-107). -/
def transfer_to_processing (s : OrchState) : OrchState × NodeName :=
  (⟨s.node_history ++ [⟨"enhancement", "transfer_to_processing"⟩]⟩, NodeName.processing)

/-- Orchestrator closure `transfer_to_validation`
(`src/app/orchestrator.py` lines 109-123). -/
def transfer_to_validation (s : OrchState) : OrchState × NodeName :=
  (⟨s.node_history ++ [⟨"processing", "transfer_to_validation"⟩]⟩, NodeName.validation)

/-- Orchestrator closure `transfer_to_review`
(`src/app/orchestrator.py` lines 125-139): taken when validation fails. -/
def transfer_to_review (s : OrchState) : OrchState × NodeName :=
  (⟨s.node_history ++ [⟨"validation", "transfer_to_review"⟩]⟩, NodeName.review)

/-- Orchestrator closure `transfer_to_completion`
(`src/app/orchestrator.py` lines 141-155): taken when validation passes. -/
def transfer_to_completion (s : OrchState) : OrchState × NodeName :=
  (⟨s.node_history ++ [⟨"validation", "transfer_to_completion"⟩]⟩, NodeName.completion)

/-- Orchestrator closure `transfer_to_manager`
(`src/app/orchestrator.py` lines 157-171): the Review → Intake/Manager
back-edge.  It is unconditional: no iteration counter is consulted. -/
def transfer_to_manager (s : OrchState) : OrchState × NodeName :=
  (⟨s.node_history ++ [⟨"review", "transfer_to_manager"⟩]⟩, NodeName.manager)

/-- The `functions` list each node's agent is created with
(`src/app/orchestrator.py` lines 199-206, 219-226, 239-246, 259-267,
280-287, 300-304): the only tools the external runtime can call while that
agent is current.  The completion agent's sole function
(`complete_content`) returns a message rather than an agent, so it offers
no transfer and the chain ends there. -/
def agentFunctions : NodeName → List (OrchState → OrchState × NodeName)
  | NodeName.manager => [transfer_to_enhancement]
  | NodeName.enhancement => [transfer_to_processing]
  | NodeName.processing => [transfer_to_validation]
  | NodeName.validation => [transfer_to_completion, transfer_to_review]
  | NodeName.review => [transfer_to_manager]
  | NodeName.completion => []

/-- The agent the chain starts with: `client.run(agent=self.manager_node.agent, ...)`
(`src/app/orchestrator.py` lines 366-372). -/
def startAgent : NodeName := NodeName.manager

/-- One step of the external runtime's hand-off loop: the runtime picks one
of the current agent's registered functions (by position); calling it
mutates the orchestrator history and yields the next agent.  An
out-of-range choice, or any choice at the completion agent, ends the
chain. -/
def chainStep (n : NodeName) (s : OrchState) (choice : Nat) :
    Option (NodeName × OrchState) :=
  match (agentFunctions n).get? choice with
  | some f => some ((f s).2, (f s).1)
  | none => none

/-- Run the hand-off loop over a list of runtime choices. -/
def runChain : List Nat → NodeName → OrchState → Option (NodeName × OrchState)
  | [], n, s => some (n, s)
  | c :: cs, n, s =>
    match chainStep n s c with
    | some (n', s') => runChain cs n' s'
    | none => none

/-- How often the Review → Manager back-edge was taken in a run: the
history entries `transfer_to_manager` records. -/
def countBackEdges (h : List HistEntry) : Nat :=
  (h.filter (fun e => e.action == "transfer_to_manager")).length

/-- Modelled from the spec: the configured retry maximum, default 3
(spec §4.2).  The source under `src/` defines no retry limit at all; this
constant exists only to state the spec's claims against the code. -/
def specMaxRetries : Nat := 3

/-- Runtime choices driving one full cycle
manager → enhancement → processing → validation → review → manager
(at validation, choice 1 picks `transfer_to_review`). -/
def cycleChoices : List Nat := [0, 0, 0, 1, 0]

/-- Runtime choices that traverse the cycle `n` times. -/
def repeatChoices (n : Nat) : List Nat :=
  (List.replicate n cycleChoices).flatten

/-- The five history entries one cycle appends. -/
def cycleEntries : List HistEntry :=
  [⟨"manager", "transfer_to_enhancement"⟩,
   ⟨"enhancement", "transfer_to_processing"⟩,
   ⟨"processing", "transfer_to_validation"⟩,
   ⟨"validation", "transfer_to_review"⟩,
   ⟨"review", "transfer_to_manager"⟩]

/-- Set one key of a Python dict: replace the existing binding in place or
append a new one (the effect of `d[k] = v` on insertion order). -/
def dictSet : Ctx → String → Value → Ctx
  | [], k, v => [(k, v)]
  | (k0, v0) :: rest, k, v =>
    if k0 = k then (k, v) :: rest else (k0, v0) :: dictSet rest k v

/-- `NodeBase.update_context` (`src/app/core/base_node.py` lines 49-72):
builds and returns the fresh merged dictionary
`{**context, "status": status, "message": message, **kwargs}`.
The argument dictionary itself is not written to. -/
def NodeBase.update_context (context : Ctx) (status message : String)
    (kwargs : Ctx) : Ctx :=
  kwargs.foldl (fun d kv => dictSet d kv.1 kv.2)
    (dictSet (dictSet context "status" (Value.vStr status))
      "message" (Value.vStr message))

/-- `ManagerNode.transfer_to_enhancement` (`src/app/nodes/manager_node.py`
lines 123-130): calls `update_context` discarding its result — so the
caller's context is unchanged — and returns the enhancement agent.
The pair is (context as the caller sees it afterwards, agent returned). -/
def ManagerNode.transfer_to_enhancement (context : Ctx) : Ctx × NodeName :=
  let _updated := NodeBase.update_context context "success"
    "Transferring to enhancement node" []
  (context, NodeName.enhancement)

/-- `EnhancementNode.transfer_to_processing`
(`src/app/nodes/enhancement_node.py` lines 113-120). -/
def EnhancementNode.transfer_to_processing (context : Ctx) : Ctx × NodeName :=
  let _updated := NodeBase.update_context context "success"
    "Transferring to processing node" []
  (context, NodeName.processing)

/-- `ProcessingNode.transfer_to_validation`
(`src/app/nodes/processing_node.py` lines 99-106). -/
def ProcessingNode.transfer_to_validation (context : Ctx) : Ctx × NodeName :=
  let _updated := NodeBase.update_context context "success"
    "Transferring to validation node" []
  (context, NodeName.validation)

/-- `ValidationNode.transfer_to_completion`
(`src/app/nodes/validation_node.py` lines 104-111): the validation-passed
edge. -/
def ValidationNode.transfer_to_completion (context : Ctx) : Ctx × NodeName :=
  let _updated := NodeBase.update_context context "success"
    "Validation passed, transferring to completion" []
  (context, NodeName.completion)

/-- `ValidationNode.transfer_to_review`
(`src/app/nodes/validation_node.py` lines 113-120): the validation-failed
edge. -/
def ValidationNode.transfer_to_review (context : Ctx) : Ctx × NodeName :=
  let _updated := NodeBase.update_context context "review_needed"
    "Validation failed, transferring to review" []
  (context, NodeName.review)

/-- `ReviewNode.transfer_to_manager` (`src/app/nodes/review_node.py`
lines 122-129): the Review → Manager back-edge at node level.  It is
unconditional, consults no iteration counter, appends nothing to any error
list, and leaves the context unchanged. -/
def ReviewNode.transfer_to_manager (context : Ctx) : Ctx × NodeName :=
  let _updated := NodeBase.update_context context "review_complete"
    "Transferring back to manager for reprocessing" []
  (context, NodeName.manager)

/-- One chat message as `process_pdf` consumes it: the final element is
either a plain string or a dict read with `.get("content", "")`. -/
inductive Msg where
  | mstr (s : String)
  | mdict (d : Ctx)

/-- What `client.run` hands back to `process_pdf`
(`src/app/orchestrator.py` lines 366-441): either an exception escaping the
run (any `Exception e`, carried as its message), a plain string, or a
response object with a `messages` list and an opaque `str(response)`
rendering. -/
inductive RunResult where
  | exn (e : String)
  | text (s : String)
  | resp (messages : List Msg) (rendering : String)

/-- `final_content` extraction (`src/app/orchestrator.py` lines 402-406). -/
def finalContent : Msg → Value
  | Msg.mstr s => Value.vStr s
  | Msg.mdict d => (d.lookup "content").getD (Value.vStr "")

/-- A `node_history` entry as serialised into the result metadata. -/
def histEntryVal (e : HistEntry) : Value :=
  Value.vDict [("node", Value.vStr e.node), ("action", Value.vStr e.action)]

/-- The `metadata` dictionary `process_pdf` builds
(`src/app/orchestrator.py` lines 384-392, 412-420, 427-435, 449-457):
`node_history` is the run's accumulated list, `node_notes` is the literal
empty list in every branch, `node_error` is empty except in the exception
branch, and `processing_time` holds the two timestamps. -/
def processMetadata (hist : List HistEntry) (node_error : List String)
    (startTime endTime : String) : Ctx :=
  [("node_history", Value.vList (hist.map histEntryVal)),
   ("node_notes", Value.vList []),
   ("node_error", Value.vList (node_error.map Value.vStr)),
   ("processing_time",
     Value.vDict [("start", Value.vStr startTime), ("end", Value.vStr endTime)])]

/-- `Orchestrator.process_pdf` (`src/app/orchestrator.py` lines 332-458)
after the `client.run` call returned (or raised): the structured result
dictionary handed to the caller.  `hist` is the orchestrator
`node_history` the transfer closures accumulated during the run; the
timestamps are opaque environment inputs.  Every branch — including the
exception branch, caught by the outer `except` — returns a dictionary;
no exception propagates. -/
def process_pdf (hist : List HistEntry) (run : RunResult)
    (startTime endTime : String) : Ctx :=
  match run with
  | RunResult.exn e =>
    [("status", Value.vStr "error"),
     ("error", Value.vStr e),
     ("metadata", Value.vDict (processMetadata hist [e] startTime endTime))]
  | RunResult.text s =>
    [("status", Value.vStr "success"),
     ("result", Value.vStr s),
     ("metadata", Value.vDict (processMetadata hist [] startTime endTime))]
  | RunResult.resp messages rendering =>
    match messages.getLast? with
    | some m =>
      [("status", Value.vStr "success"),
       ("result", finalContent m),
       ("metadata", Value.vDict (processMetadata hist [] startTime endTime))]
    | none =>
      [("status", Value.vStr "success"),
       ("result", Value.vStr rendering),
       ("metadata", Value.vDict (processMetadata hist [] startTime endTime))]

/-- `process_document` (`src/app/main.py` lines 11-44): wraps orchestrator
construction and `process_pdf`; if construction itself raises, returns its
own error dictionary, again without propagating the exception. -/
def process_document (init : Except String Unit) (hist : List HistEntry)
    (run : RunResult) (startTime endTime : String) : Ctx :=
  match init with
  | Except.error e =>
    [("status", Value.vStr "error"),
     ("error", Value.vStr e),
     ("metadata", Value.vDict
       [("node_history", Value.vList []),
        ("node_notes", Value.vList []),
        ("node_error", Value.vList [Value.vStr e])])]
  | Except.ok _ => process_pdf hist run startTime endTime

/-- Extract the `metadata` dictionary of a result. -/
def metadataOf (r : Ctx) : Ctx :=
  match r.lookup "metadata" with
  | some (Value.vDict d) => d
  | _ => []

/-- `setattr(self, key, value)` guarded by `hasattr(self, key)`
(`src/app/models/pdf_context.py` lines 52-54): a known field name is
assigned the (type-correct) value, an unknown key is ignored. -/
def PDFContext.setField (c : PDFContext) (key : String) (v : Value) : PDFContext :=
  if key = "pdf_text" then
    match asStr v with | some s => { c with pdf_text := s } | none => c
  else if key = "user_prompt" then
    match asStr v with | some s => { c with user_prompt := s } | none => c
  else if key = "enhanced_prompt" then
    match asStr v with | some s => { c with enhanced_prompt := s } | none => c
  else if key = "response" then
    match asStr v with | some s => { c with response := s } | none => c
  else if key = "response_args" then
    match asDict v with | some d => { c with response_args := d } | none => c
  else if key = "node_history" then
    match asStrList v with | some l => { c with node_history := l } | none => c
  else if key = "node_notes" then
    match asStrList v with | some l => { c with node_notes := l } | none => c
  else if key = "node_status" then
    match asBool v with | some b => { c with node_status := b } | none => c
  else if key = "node_error" then
    match asStrList v with | some l => { c with node_error := l } | none => c
  else if key = "validation_failed" then
    match asBool v with | some b => { c with validation_failed := b } | none => c
  else if key = "processing_time" then
    match asOptRat v with | some q => { c with processing_time := q } | none => c
  else if key = "token_count" then
    match asOptInt v with | some n => { c with token_count := n } | none => c
  else if key = "confidence_score" then
    match asOptRat v with | some q => { c with confidence_score := q } | none => c
  else c

/-- `PDFContext.update` (`src/app/models/pdf_context.py` lines 34-54):
sets `node_status` to whether `status == "success"`, appends the class
name (`self.__class__.__name__`, literally `"PDFContext"`) to
`node_history`, appends `message` to `node_notes`, then assigns every
keyword argument whose key names an existing field. -/
def PDFContext.update (c : PDFContext) (status message : String)
    (kwargs : Ctx) : PDFContext :=
  let c1 := { c with
    node_status := status == "success",
    node_history := c.node_history ++ ["PDFContext"],
    node_notes := c.node_notes ++ [message] }
  kwargs.foldl (fun acc kv => acc.setField kv.1 kv.2) c1

theorem strListOf_map_vStr (l : List String) :
    strListOf (l.map Value.vStr) = some l := by
  induction l with
  | nil => rfl
  | cons x xs ih => simp [strListOf, asStr, ih]

/-- Claim C10: for every `PDFContext` value `c`,
`PDFContext.from_dict (c.to_dict)` reconstructs `c` exactly: serialising to
a dictionary and back is a lossless round-trip over all thirteen fields. -/
theorem from_dict_to_dict_roundtrip (c : PDFContext) :
    PDFContext.from_dict c.to_dict = some c := by
  cases c with
  | mk pdf_text user_prompt enhanced_prompt response response_args
      node_history node_notes node_status node_error validation_failed
      processing_time token_count confidence_score =>
    simp [PDFContext.from_dict, PDFContext.to_dict, getField, List.lookup,
          asStr, asBool, asDict, asStrList, asOptRat, asOptInt,
          strListOf_map_vStr, pdfContextKeys, optRatVal, optIntVal]
    cases processing_time <;> cases token_count <;> cases confidence_score <;>
      simp [optRatVal, optIntVal, asOptRat, asOptInt]


theorem runChain_append (a b : List Nat) (n : NodeName) (s : OrchState) :
    runChain (a ++ b) n s =
      (runChain a n s).bind (fun r => runChain b r.1 r.2) := by
  induction a generalizing n s with
  | nil => rfl
  | cons c cs ih =>
    show runChain (c :: (cs ++ b)) n s = _
    cases h : chainStep n s c with
    | none => simp [runChain, h]
    | some r => simp [runChain, h, ih]

theorem runChain_cycle (s : OrchState) :
    runChain cycleChoices NodeName.manager s =
      some (NodeName.manager, ⟨s.node_history ++ cycleEntries⟩) := by
  simp [cycleChoices, runChain, chainStep, agentFunctions,
        transfer_to_enhancement, transfer_to_processing, transfer_to_validation,
        transfer_to_review, transfer_to_manager, cycleEntries,
        List.append_assoc]

theorem countBackEdges_append (a b : List HistEntry) :
    countBackEdges (a ++ b) = countBackEdges a + countBackEdges b := by
  simp [countBackEdges, List.filter_append]

theorem countBackEdges_cycle : countBackEdges cycleEntries = 1 := rfl

/-- Claim C1 as stated is false: the run driven by twenty runtime choices
that traverse the stage cycle four times is accepted by the code and takes
the Review → Manager back-edge 4 > 3 = `specMaxRetries` times; no retry
budget bounds the loop. -/
theorem c1_counterexample :
    (runChain (repeatChoices 4) startAgent ⟨[]⟩).map
        (fun r => countBackEdges r.2.node_history) = some 4 ∧
    specMaxRetries < 4 := by
  constructor
  · rfl
  · decide

/-- Claim C1, amended: the code imposes no retry bound at all.  For every
`n` there is a sequence of runtime choices under which the hand-off chain
stays inside the stage cycle and takes the Review → Manager back-edge
exactly `n` times; no iteration counter in the code forces termination,
which rests entirely with the external runtime. -/
theorem c1_amended_no_retry_bound (n : Nat) :
    ∃ s : OrchState,
      runChain (repeatChoices n) startAgent ⟨[]⟩ = some (NodeName.manager, s) ∧
      countBackEdges s.node_history = n := by
  suffices h : ∀ (m : Nat) (s0 : OrchState), ∃ s,
      runChain (repeatChoices m) NodeName.manager s0 = some (NodeName.manager, s) ∧
      countBackEdges s.node_history = countBackEdges s0.node_history + m by
    obtain ⟨s, hs, hc⟩ := h n ⟨[]⟩
    exact ⟨s, hs, by simpa [countBackEdges] using hc⟩
  intro m
  induction m with
  | zero =>
    intro s0
    exact ⟨s0, rfl, rfl⟩
  | succ m ih =>
    intro s0
    have hsplit : repeatChoices (m + 1) = cycleChoices ++ repeatChoices m := by
      simp [repeatChoices, List.replicate_succ]
    obtain ⟨s, hs, hc⟩ := ih ⟨s0.node_history ++ cycleEntries⟩
    refine ⟨s, ?_, ?_⟩
    · rw [hsplit, runChain_append, runChain_cycle]
      simpa using hs
    · rw [hc]
      simp [countBackEdges_append, countBackEdges_cycle]
      omega

/-- Claim C2 as stated is false: with the recorded back-edge count already
at the spec's maximum of 3, the Review → Manager transfer still hands the
chain to the manager (not to Completion), raises the recorded count to 4,
and the node-level transfer leaves the context — including its
`node_error` list — unchanged: no "max retries exceeded" entry is ever
appended and no failed status is set. -/
theorem c2_counterexample :
    (transfer_to_manager ⟨List.replicate 3 ⟨"review", "transfer_to_manager"⟩⟩).2 =
        NodeName.manager ∧
    countBackEdges (transfer_to_manager
        ⟨List.replicate 3 ⟨"review", "transfer_to_manager"⟩⟩).1.node_history =
      specMaxRetries + 1 ∧
    (ReviewNode.transfer_to_manager [("node_error", Value.vList [])]).1 =
        [("node_error", Value.vList [])] := by
  exact ⟨rfl, by decide, rfl⟩

/-- Claim C2, amended: each traversal of the Review → Manager back-edge
appends one history entry, so the recorded back-edge count strictly
increases by one — but no maximum is enforced.  The repository defines no
`iteration_count`; the edge is unconditional, always targets the manager,
never forces Completion, never sets a failed status, and appends nothing
to any error list (the node-level transfer returns the context
unchanged). -/
theorem c2_amended_backedge_unguarded (s : OrchState) (context : Ctx) :
    countBackEdges (transfer_to_manager s).1.node_history =
        countBackEdges s.node_history + 1 ∧
    (transfer_to_manager s).2 = NodeName.manager ∧
    ReviewNode.transfer_to_manager context = (context, NodeName.manager) := by
  refine ⟨?_, rfl, rfl⟩
  rw [show (transfer_to_manager s).1.node_history =
      s.node_history ++ [⟨"review", "transfer_to_manager"⟩] from rfl]
  rw [countBackEdges_append]
  rfl

/-- Claim C6: the stage-transition graph is exactly the fixed one.  The
validation agent's registered functions target exactly Completion then
Review; the review agent's sole registered function targets the
Intake/Manager agent; and the chain always starts at the manager
(intake) agent. -/
theorem c6_transition_graph (s : OrchState) :
    (agentFunctions NodeName.validation).map (fun f => (f s).2) =
        [NodeName.completion, NodeName.review] ∧
    (agentFunctions NodeName.review).map (fun f => (f s).2) =
        [NodeName.manager] ∧
    startAgent = NodeName.manager := by
  exact ⟨rfl, rfl, rfl⟩

theorem dictSet_lookup_self (d : Ctx) (k : String) (v : Value) :
    (dictSet d k v).lookup k = some v := by
  induction d with
  | nil => simp [dictSet, List.lookup]
  | cons kv rest ih =>
    by_cases h : kv.1 = k
    · simp [dictSet, h, List.lookup]
    · have hb : (k == kv.1) = false := beq_eq_false_iff_ne.mpr (Ne.symm h)
      simp [dictSet, h, List.lookup, hb, ih]

theorem dictSet_lookup_ne (d : Ctx) (k k0 : String) (v : Value) (h : k ≠ k0) :
    (dictSet d k0 v).lookup k = d.lookup k := by
  have hb0 : (k == k0) = false := beq_eq_false_iff_ne.mpr h
  induction d with
  | nil => simp [dictSet, List.lookup, hb0]
  | cons kv rest ih =>
    by_cases h0 : kv.1 = k0
    · simp [dictSet, h0, List.lookup, hb0]
    · by_cases h1 : k = kv.1
      · simp [dictSet, h0, List.lookup, h1]
      · have hb1 : (k == kv.1) = false := beq_eq_false_iff_ne.mpr h1
        simp [dictSet, h0, List.lookup, hb1, ih]

/-- Claim C9: the transfer functions leave the passed context unchanged.
Each node-level transfer discards the dictionary `update_context` builds
and returns only the next agent, so the caller's context after the call
is exactly the context before it; and `update_context` itself is a fresh
merge — its result binds `"status"` to the new status and agrees with its
argument on every other key, rather than writing into the argument. -/
theorem c9_transfers_preserve_context (context : Ctx)
    (status message k : String) :
    ManagerNode.transfer_to_enhancement context = (context, NodeName.enhancement) ∧
    EnhancementNode.transfer_to_processing context = (context, NodeName.processing) ∧
    ProcessingNode.transfer_to_validation context = (context, NodeName.validation) ∧
    ValidationNode.transfer_to_review context = (context, NodeName.review) ∧
    ValidationNode.transfer_to_completion context = (context, NodeName.completion) ∧
    ReviewNode.transfer_to_manager context = (context, NodeName.manager) ∧
    (NodeBase.update_context context status message []).lookup "status" =
        some (Value.vStr status) ∧
    (k ≠ "status" → k ≠ "message" →
      (NodeBase.update_context context status message []).lookup k =
        context.lookup k) := by
  refine ⟨rfl, rfl, rfl, rfl, rfl, rfl, ?_, ?_⟩
  · show (dictSet (dictSet context "status" (Value.vStr status)) "message"
        (Value.vStr message)).lookup "status" = some (Value.vStr status)
    rw [dictSet_lookup_ne _ _ _ _ (by decide), dictSet_lookup_self]
  · intro h1 h2
    show (dictSet (dictSet context "status" (Value.vStr status)) "message"
        (Value.vStr message)).lookup k = context.lookup k
    rw [dictSet_lookup_ne _ _ _ _ h2, dictSet_lookup_ne _ _ _ _ h1]

/-- Witness for C9 at a concrete context and key. -/
theorem c9_transfers_preserve_context_witness :
    (NodeBase.update_context [("pdf_text", Value.vStr "doc")] "success" "ok"
        []).lookup "pdf_text" =
      ([("pdf_text", Value.vStr "doc")] : Ctx).lookup "pdf_text" := by
  exact (c9_transfers_preserve_context [("pdf_text", Value.vStr "doc")]
    "success" "ok" "pdf_text").2.2.2.2.2.2.2 (by decide) (by decide)

/-- Claim C3: no exception raised during the run or during orchestrator
construction ever propagates: `process_document` / `process_pdf` return a
structured dictionary in every case, its `"status"` is always `"success"`
or `"error"`, and on any exception the status is the failure value
`"error"` with the exception's message recorded in the metadata's
`node_error` list (and, for run-time exceptions, under the `"error"` key
as well). -/
theorem c3_no_raw_exception (init : Except String Unit) (hist : List HistEntry)
    (run : RunResult) (startTime endTime : String) :
    ((process_document init hist run startTime endTime).lookup "status" =
          some (Value.vStr "success") ∨
      (process_document init hist run startTime endTime).lookup "status" =
          some (Value.vStr "error")) ∧
    (∀ e, init = Except.error e →
      (process_document init hist run startTime endTime).lookup "status" =
          some (Value.vStr "error") ∧
      (metadataOf (process_document init hist run startTime endTime)).lookup
          "node_error" = some (Value.vList [Value.vStr e])) ∧
    (∀ e, init = Except.ok () → run = RunResult.exn e →
      (process_document init hist run startTime endTime).lookup "status" =
          some (Value.vStr "error") ∧
      (process_document init hist run startTime endTime).lookup "error" =
          some (Value.vStr e) ∧
      (metadataOf (process_document init hist run startTime endTime)).lookup
          "node_error" = some (Value.vList [Value.vStr e])) := by
  refine ⟨?_, ?_, ?_⟩
  · cases init with
    | error e => right; rfl
    | ok u =>
      cases run with
      | exn e => right; rfl
      | text s => left; rfl
      | resp messages rendering =>
        cases h : messages.getLast? with
        | some m => left; simp [process_document, process_pdf, h, List.lookup]
        | none => left; simp [process_document, process_pdf, h, List.lookup]
  · intro e he
    subst he
    exact ⟨rfl, rfl⟩
  · intro e hi hr
    subst hi
    subst hr
    exact ⟨rfl, rfl, rfl⟩

/-- Witness for C3: a concrete run whose external call raised `"boom"`
still yields a structured result with status `"error"`. -/
theorem c3_no_raw_exception_witness :
    (process_document (Except.ok ()) [] (RunResult.exn "boom") "t0" "t1").lookup
        "status" = some (Value.vStr "error") ∧
    (metadataOf (process_document (Except.ok ()) [] (RunResult.exn "boom")
        "t0" "t1")).lookup "node_error" = some (Value.vList [Value.vStr "boom"]) := by
  have h := (c3_no_raw_exception (Except.ok ()) [] (RunResult.exn "boom")
    "t0" "t1").2.2 "boom" rfl rfl
  exact ⟨h.1, h.2.2⟩

/-- Claim C8 as stated is false: on a concrete successful run the result's
metadata has no `iteration_count` key at all, and its `node_notes` entry
is the hard-coded empty list. -/
theorem c8_counterexample :
    (metadataOf (process_pdf [⟨"manager", "transfer_to_enhancement"⟩]
        (RunResult.resp [Msg.mdict [("content", Value.vStr "answer")]] "r")
        "t0" "t1")).lookup "iteration_count" = none ∧
    (metadataOf (process_pdf [⟨"manager", "transfer_to_enhancement"⟩]
        (RunResult.resp [Msg.mdict [("content", Value.vStr "answer")]] "r")
        "t0" "t1")).lookup "node_notes" = some (Value.vList []) := by
  exact ⟨rfl, rfl⟩

/-- Claim C8, amended: the metadata of every `process_pdf` result carries
the run's accumulated `node_history` and a `processing_time` entry, but
`node_notes` is always the hard-coded empty list, `node_error` is empty on
every success path and holds exactly the exception message on the failure
path, and no `iteration_count` key exists. -/
theorem c8_amended_metadata (hist : List HistEntry) (run : RunResult)
    (startTime endTime : String) :
    (metadataOf (process_pdf hist run startTime endTime)).lookup "node_history" =
        some (Value.vList (hist.map histEntryVal)) ∧
    (metadataOf (process_pdf hist run startTime endTime)).lookup "node_notes" =
        some (Value.vList []) ∧
    (metadataOf (process_pdf hist run startTime endTime)).lookup
        "processing_time" =
      some (Value.vDict [("start", Value.vStr startTime),
                         ("end", Value.vStr endTime)]) ∧
    (metadataOf (process_pdf hist run startTime endTime)).lookup
        "iteration_count" = none ∧
    (∀ e, run = RunResult.exn e →
      (metadataOf (process_pdf hist run startTime endTime)).lookup "node_error" =
        some (Value.vList [Value.vStr e])) ∧
    ((∀ e, run ≠ RunResult.exn e) →
      (metadataOf (process_pdf hist run startTime endTime)).lookup "node_error" =
        some (Value.vList [])) := by
  cases run with
  | exn e =>
    refine ⟨rfl, rfl, rfl, rfl, ?_, ?_⟩
    · intro e' he
      cases he
      rfl
    · intro hne
      exact absurd rfl (hne e)
  | text s =>
    refine ⟨rfl, rfl, rfl, rfl, ?_, ?_⟩
    · intro e he
      cases he
    · intro hne
      rfl
  | resp messages rendering =>
    cases h : messages.getLast? with
    | some m =>
      refine ⟨?_, ?_, ?_, ?_, ?_, ?_⟩ <;>
        simp [process_pdf, h, metadataOf, processMetadata, List.lookup]
    | none =>
      refine ⟨?_, ?_, ?_, ?_, ?_, ?_⟩ <;>
        simp [process_pdf, h, metadataOf, processMetadata, List.lookup]

/-- Witness for C8 (amended): concrete failure and success runs. -/
theorem c8_amended_metadata_witness :
    (metadataOf (process_pdf [] (RunResult.exn "boom") "t0" "t1")).lookup
        "node_error" = some (Value.vList [Value.vStr "boom"]) ∧
    (metadataOf (process_pdf [] (RunResult.text "done") "t0" "t1")).lookup
        "node_error" = some (Value.vList []) := by
  refine ⟨(c8_amended_metadata [] (RunResult.exn "boom") "t0" "t1").2.2.2.2.1
      "boom" rfl,
    (c8_amended_metadata [] (RunResult.text "done") "t0" "t1").2.2.2.2.2 ?_⟩
  intro e he
  cases he

theorem setField_frame (c : PDFContext) (key : String) (v : Value) :
    ((c.setField key v).node_history = c.node_history ∨ key = "node_history") ∧
    ((c.setField key v).node_notes = c.node_notes ∨ key = "node_notes") ∧
    ((c.setField key v).node_error = c.node_error ∨ key = "node_error") ∧
    ((c.setField key v).pdf_text = c.pdf_text ∨ key = "pdf_text") ∧
    ((c.setField key v).user_prompt = c.user_prompt ∨ key = "user_prompt") := by
  unfold PDFContext.setField
  by_cases h1 : key = "pdf_text"
  · rw [if_pos h1]
    refine ⟨?_, ?_, ?_, ?_, ?_⟩ <;>
      first
        | (right; exact h1)
        | (left; split <;> rfl)
  · rw [if_neg h1]
    by_cases h2 : key = "user_prompt"
    · rw [if_pos h2]
      refine ⟨?_, ?_, ?_, ?_, ?_⟩ <;>
        first
          | (right; exact h2)
          | (left; split <;> rfl)
    · rw [if_neg h2]
      by_cases h3 : key = "enhanced_prompt"
      · rw [if_pos h3]
        refine ⟨?_, ?_, ?_, ?_, ?_⟩ <;>
          first
            | (right; exact h3)
            | (left; split <;> rfl)
      · rw [if_neg h3]
        by_cases h4 : key = "response"
        · rw [if_pos h4]
          refine ⟨?_, ?_, ?_, ?_, ?_⟩ <;>
            first
              | (right; exact h4)
              | (left; split <;> rfl)
        · rw [if_neg h4]
          by_cases h5 : key = "response_args"
          · rw [if_pos h5]
            refine ⟨?_, ?_, ?_, ?_, ?_⟩ <;>
              first
                | (right; exact h5)
                | (left; split <;> rfl)
          · rw [if_neg h5]
            by_cases h6 : key = "node_history"
            · rw [if_pos h6]
              refine ⟨?_, ?_, ?_, ?_, ?_⟩ <;>
                first
                  | (right; exact h6)
                  | (left; split <;> rfl)
            · rw [if_neg h6]
              by_cases h7 : key = "node_notes"
              · rw [if_pos h7]
                refine ⟨?_, ?_, ?_, ?_, ?_⟩ <;>
                  first
                    | (right; exact h7)
                    | (left; split <;> rfl)
              · rw [if_neg h7]
                by_cases h8 : key = "node_status"
                · rw [if_pos h8]
                  refine ⟨?_, ?_, ?_, ?_, ?_⟩ <;>
                    first
                      | (right; exact h8)
                      | (left; split <;> rfl)
                · rw [if_neg h8]
                  by_cases h9 : key = "node_error"
                  · rw [if_pos h9]
                    refine ⟨?_, ?_, ?_, ?_, ?_⟩ <;>
                      first
                        | (right; exact h9)
                        | (left; split <;> rfl)
                  · rw [if_neg h9]
                    by_cases h10 : key = "validation_failed"
                    · rw [if_pos h10]
                      refine ⟨?_, ?_, ?_, ?_, ?_⟩ <;>
                        first
                          | (right; exact h10)
                          | (left; split <;> rfl)
                    · rw [if_neg h10]
                      by_cases h11 : key = "processing_time"
                      · rw [if_pos h11]
                        refine ⟨?_, ?_, ?_, ?_, ?_⟩ <;>
                          first
                            | (right; exact h11)
                            | (left; split <;> rfl)
                      · rw [if_neg h11]
                        by_cases h12 : key = "token_count"
                        · rw [if_pos h12]
                          refine ⟨?_, ?_, ?_, ?_, ?_⟩ <;>
                            first
                              | (right; exact h12)
                              | (left; split <;> rfl)
                        · rw [if_neg h12]
                          by_cases h13 : key = "confidence_score"
                          · rw [if_pos h13]
                            refine ⟨?_, ?_, ?_, ?_, ?_⟩ <;>
                              first
                                | (right; exact h13)
                                | (left; split <;> rfl)
                          · rw [if_neg h13]
                            exact ⟨Or.inl rfl, Or.inl rfl, Or.inl rfl, Or.inl rfl, Or.inl rfl⟩

theorem foldl_setField_node_history (kwargs : Ctx) (c : PDFContext)
    (h : ∀ kv ∈ kwargs, kv.1 ≠ "node_history") :
    (kwargs.foldl (fun acc kv => acc.setField kv.1 kv.2) c).node_history =
      c.node_history := by
  induction kwargs generalizing c with
  | nil => rfl
  | cons kv rest ih =>
    have hh := h kv (List.mem_cons_self _ _)
    rw [List.foldl_cons, ih _ (fun kv hm => h kv (List.mem_cons_of_mem _ hm))]
    rcases (setField_frame c kv.1 kv.2).1 with he | he
    · exact he
    · exact absurd he hh

theorem foldl_setField_node_notes (kwargs : Ctx) (c : PDFContext)
    (h : ∀ kv ∈ kwargs, kv.1 ≠ "node_notes") :
    (kwargs.foldl (fun acc kv => acc.setField kv.1 kv.2) c).node_notes =
      c.node_notes := by
  induction kwargs generalizing c with
  | nil => rfl
  | cons kv rest ih =>
    have hh := h kv (List.mem_cons_self _ _)
    rw [List.foldl_cons, ih _ (fun kv hm => h kv (List.mem_cons_of_mem _ hm))]
    rcases (setField_frame c kv.1 kv.2).2.1 with he | he
    · exact he
    · exact absurd he hh

theorem foldl_setField_node_error (kwargs : Ctx) (c : PDFContext)
    (h : ∀ kv ∈ kwargs, kv.1 ≠ "node_error") :
    (kwargs.foldl (fun acc kv => acc.setField kv.1 kv.2) c).node_error =
      c.node_error := by
  induction kwargs generalizing c with
  | nil => rfl
  | cons kv rest ih =>
    have hh := h kv (List.mem_cons_self _ _)
    rw [List.foldl_cons, ih _ (fun kv hm => h kv (List.mem_cons_of_mem _ hm))]
    rcases (setField_frame c kv.1 kv.2).2.2.1 with he | he
    · exact he
    · exact absurd he hh

theorem foldl_setField_pdf_text (kwargs : Ctx) (c : PDFContext)
    (h : ∀ kv ∈ kwargs, kv.1 ≠ "pdf_text") :
    (kwargs.foldl (fun acc kv => acc.setField kv.1 kv.2) c).pdf_text =
      c.pdf_text := by
  induction kwargs generalizing c with
  | nil => rfl
  | cons kv rest ih =>
    have hh := h kv (List.mem_cons_self _ _)
    rw [List.foldl_cons, ih _ (fun kv hm => h kv (List.mem_cons_of_mem _ hm))]
    rcases (setField_frame c kv.1 kv.2).2.2.2.1 with he | he
    · exact he
    · exact absurd he hh

theorem foldl_setField_user_prompt (kwargs : Ctx) (c : PDFContext)
    (h : ∀ kv ∈ kwargs, kv.1 ≠ "user_prompt") :
    (kwargs.foldl (fun acc kv => acc.setField kv.1 kv.2) c).user_prompt =
      c.user_prompt := by
  induction kwargs generalizing c with
  | nil => rfl
  | cons kv rest ih =>
    have hh := h kv (List.mem_cons_self _ _)
    rw [List.foldl_cons, ih _ (fun kv hm => h kv (List.mem_cons_of_mem _ hm))]
    rcases (setField_frame c kv.1 kv.2).2.2.2.2 with he | he
    · exact he
    · exact absurd he hh

/-- Claim C4 as stated is false: `PDFContext.update` first appends to the
logs but then applies every keyword argument with `setattr`, so a kwarg
naming a log field overwrites it wholesale.  Concretely, updating a
context whose `node_history` holds one entry with the kwarg
`node_history=[]` leaves an empty history: the previously appended entry
is removed and the length strictly decreases. -/
theorem c4_counterexample :
    (PDFContext.update { node_history := ["ManagerNode"] } "success" "checked"
        [("node_history", Value.vList [])]).node_history = [] ∧
    (PDFContext.update { node_history := ["ManagerNode"] } "success" "checked"
        [("node_history", Value.vList [])]).node_history.length <
      ({ node_history := ["ManagerNode"] } : PDFContext).node_history.length := by
  exact ⟨rfl, by decide⟩

/-- Claim C4, amended: the logs are append-only provided no keyword
argument names a log field.  Under that restriction `update` extends
`node_history` by exactly the class name, extends `node_notes` by exactly
the message, and leaves `node_error` unchanged; and every orchestrator
transfer extends the run's `node_history` by exactly one entry.  Without
the restriction, a kwarg naming `node_history`, `node_notes` or
`node_error` replaces that log outright. -/
theorem c4_amended_append_only (c : PDFContext) (status message : String)
    (kwargs : Ctx)
    (h : ∀ kv ∈ kwargs, kv.1 ≠ "node_history" ∧ kv.1 ≠ "node_notes" ∧
      kv.1 ≠ "node_error") :
    (c.update status message kwargs).node_history =
        c.node_history ++ ["PDFContext"] ∧
    (c.update status message kwargs).node_notes = c.node_notes ++ [message] ∧
    (c.update status message kwargs).node_error = c.node_error ∧
    (∀ (n : NodeName) (s : OrchState), ∀ f ∈ agentFunctions n,
      ∃ entry, (f s).1.node_history = s.node_history ++ [entry]) := by
  have hu : c.update status message kwargs =
      kwargs.foldl (fun acc kv => acc.setField kv.1 kv.2)
        { c with node_status := status == "success",
                 node_history := c.node_history ++ ["PDFContext"],
                 node_notes := c.node_notes ++ [message] } := rfl
  refine ⟨?_, ?_, ?_, ?_⟩
  · rw [hu, foldl_setField_node_history kwargs _ (fun kv hm => (h kv hm).1)]
  · rw [hu, foldl_setField_node_notes kwargs _ (fun kv hm => (h kv hm).2.1)]
  · rw [hu, foldl_setField_node_error kwargs _ (fun kv hm => (h kv hm).2.2)]
  · intro n s f hf
    cases n with
    | manager =>
      rw [show f = transfer_to_enhancement from by
        simpa [agentFunctions] using hf]
      exact ⟨⟨"manager", "transfer_to_enhancement"⟩, rfl⟩
    | enhancement =>
      rw [show f = transfer_to_processing from by
        simpa [agentFunctions] using hf]
      exact ⟨⟨"enhancement", "transfer_to_processing"⟩, rfl⟩
    | processing =>
      rw [show f = transfer_to_validation from by
        simpa [agentFunctions] using hf]
      exact ⟨⟨"processing", "transfer_to_validation"⟩, rfl⟩
    | validation =>
      rcases (by simpa [agentFunctions] using hf :
          f = transfer_to_completion ∨ f = transfer_to_review) with he | he <;>
        rw [he]
      · exact ⟨⟨"validation", "transfer_to_completion"⟩, rfl⟩
      · exact ⟨⟨"validation", "transfer_to_review"⟩, rfl⟩
    | review =>
      rw [show f = transfer_to_manager from by
        simpa [agentFunctions] using hf]
      exact ⟨⟨"review", "transfer_to_manager"⟩, rfl⟩
    | completion => simp [agentFunctions] at hf

/-- Witness for C4 (amended) at a concrete context and kwargs. -/
theorem c4_amended_append_only_witness :
    (PDFContext.update {} "success" "checked"
        [("response", Value.vStr "ok")]).node_history = [] ++ ["PDFContext"] := by
  refine (c4_amended_append_only {} "success" "checked"
    [("response", Value.vStr "ok")] ?_).1
  intro kv hm
  rw [List.mem_singleton] at hm
  subst hm
  exact ⟨by decide, by decide, by decide⟩

/-- Claim C5 as stated is false: `update`'s keyword-argument loop can
reassign `pdf_text` (and likewise `user_prompt`), so the immutable-input
law fails for operations that pass such a kwarg. -/
theorem c5_counterexample :
    (PDFContext.update { pdf_text := "original", user_prompt := "ask" }
        "success" "note" [("pdf_text", Value.vStr "clobbered")]).pdf_text =
      "clobbered" ∧
    ({ pdf_text := "original", user_prompt := "ask" } : PDFContext).pdf_text =
      "original" := by
  exact ⟨rfl, rfl⟩

/-- Claim C5, amended: `document_text` (`pdf_text`) and `original_request`
(`user_prompt`) are preserved by every `update` whose keyword arguments do
not name them — the positional effects of `update` (status flag, history
append, notes append) never touch the two input fields, and no call site
in the repository passes such a kwarg — but a kwarg naming either field
reassigns it. -/
theorem c5_amended_inputs_immutable (c : PDFContext) (status message : String)
    (kwargs : Ctx)
    (h : ∀ kv ∈ kwargs, kv.1 ≠ "pdf_text" ∧ kv.1 ≠ "user_prompt") :
    (c.update status message kwargs).pdf_text = c.pdf_text ∧
    (c.update status message kwargs).user_prompt = c.user_prompt := by
  have hu : c.update status message kwargs =
      kwargs.foldl (fun acc kv => acc.setField kv.1 kv.2)
        { c with node_status := status == "success",
                 node_history := c.node_history ++ ["PDFContext"],
                 node_notes := c.node_notes ++ [message] } := rfl
  constructor
  · rw [hu, foldl_setField_pdf_text kwargs _ (fun kv hm => (h kv hm).1)]
  · rw [hu, foldl_setField_user_prompt kwargs _ (fun kv hm => (h kv hm).2)]

/-- Witness for C5 (amended) at a concrete context and kwargs. -/
theorem c5_amended_inputs_immutable_witness :
    (PDFContext.update { pdf_text := "doc", user_prompt := "ask" } "success"
        "note" [("response", Value.vStr "ok")]).pdf_text = "doc" := by
  refine (c5_amended_inputs_immutable
    { pdf_text := "doc", user_prompt := "ask" } "success" "note"
    [("response", Value.vStr "ok")] ?_).1
  intro kv hm
  rw [List.mem_singleton] at hm
  subst hm
  exact ⟨by decide, by decide⟩
